import Mathlib

/-!
Verification of the s/z preposition add-in core
(repository `predloga-sz2`, file `src/commands/preposition.js`).

Strings are modelled as `List Char` (a JS string viewed as its sequence of
code points, which is how the `u`-flag regexes of the source iterate it).
The Unicode-dependent primitives of the source — `String.prototype.normalize
("NFC")`, the `\p{L}` letter class and `String.prototype.toLowerCase` — are
kept abstract in a `RuleCtx` record, so every theorem quantifies over any
implementation of them (subject to facts that hold of the real ones, such as
`toLowerCase` fixing the ASCII digits).  The ASCII digit classes `[0-9]` and
`\d` of the source are concrete and modelled concretely.
-/

namespace Predloga

/-- The host-string primitives the rule engine delegates to:
`nfc` models `normalize("NFC")`, `isLetter` models the `\p{L}` character
class, `toLower` models `toLowerCase` applied to a single character. -/
structure RuleCtx where
  nfc : List Char → List Char
  isLetter : Char → Bool
  toLower : Char → Char

/-- The ten ASCII digits, the exact denotation of the source's `[0-9]`
and `\d` character classes. -/
def digitChars : List Char := ['0', '1', '2', '3', '4', '5', '6', '7', '8', '9']

/-- `isDigitChar c` is the source's `/\d/.test(c)` (equivalently its `[0-9]`). -/
def isDigitChar (c : Char) : Bool := digitChars.contains c

/-- The `voiceless` set of `determineCorrectPreposition` (line 31). -/
def voiceless : List Char := ['c', 'č', 'f', 'h', 'k', 'p', 's', 'š', 't']

/-- The `digitMap` table of `determineCorrectPreposition` (line 32).
A JS object lookup is partial, hence `Option`: `none` models `undefined`. -/
def digitMap : Char → Option Char
  | '1' => some 'e'
  | '2' => some 'd'
  | '3' => some 't'
  | '4' => some 'š'
  | '5' => some 'p'
  | '6' => some 'š'
  | '7' => some 's'
  | '8' => some 'o'
  | '9' => some 'd'
  | '0' => some 'n'
  | _ => none

/-- `rawWord.match(/[\p{L}0-9]/u)`: the first character that is a letter or
an ASCII digit, `none` when no character matches. -/
def firstLetterOrDigit (isLetter : Char → Bool) : List Char → Option Char
  | [] => none
  | c :: rest =>
    if isLetter c || isDigitChar c then some c else firstLetterOrDigit isLetter rest

/-- Embedding of `determineCorrectPreposition` (preposition.js lines 26-35):
empty (falsy) input returns `null`; otherwise the input is NFC-normalized,
the first letter-or-digit is extracted (`null` when there is none) and
lowercased; a digit is sent through `digitMap`; the result is `"s"` when the
key is in `voiceless` and `"z"` otherwise (`Set.has(undefined)` is `false`,
modelled by the `none` branch). -/
def determineCorrectPreposition (ctx : RuleCtx) (rawWord : List Char) :
    Option (List Char) :=
  if rawWord = [] then none
  else
    match firstLetterOrDigit ctx.isLetter (ctx.nfc rawWord) with
    | none => none
    | some m =>
      let c := ctx.toLower m
      let key : Option Char := if isDigitChar c then digitMap c else some c
      some (if (match key with
                | some k => voiceless.contains k
                | none => false) then ['s'] else ['z'])

/-- Reference definition of §4.1 `expectedPreposition` for the `{s,z}` class,
written from the spec's words: normalize to NFC; extract the first character
that is a letter or decimal digit, returning `None` when none exists; map a
digit to its phonetic-class letter through the fixed table; answer `"s"` when
the resulting letter is in the unvoiced set and `"z"` otherwise.  Letters of
the unvoiced set denote consonant sounds, which are caseless, so membership
of an extracted letter is read up to case (the letter is taken lowercase);
the table's output letters are already in canonical lowercase. -/
def expectedPreposition (ctx : RuleCtx) (nextWordText : List Char) :
    Option (List Char) :=
  match firstLetterOrDigit ctx.isLetter (ctx.nfc nextWordText) with
  | none => none
  | some ch =>
    let letter : Option Char :=
      if isDigitChar ch then digitMap ch else some (ctx.toLower ch)
    some (if (match letter with
              | some l => voiceless.contains l
              | none => false) then ['s'] else ['z'])

/-! ## Mismatch session layer

The module state of preposition.js (`state.errors`, `state.currentIndex`,
`state.isChecking`) and the Document Access collaborator (the Word host).
A `Word.Range` is modelled by its opaque location, a `Nat`; the document is
a `DocState` giving, per location, the current text of the range there, the
text of the next word-like span after it (`getRange("After")
.getNextTextRange([" ","\n",".",",",";","?","!"], true)`), its highlight
color, and the current selection.  Host `context.sync()` calls are numbered
within each operation; `failAt = some k` makes the k-th sync of the
operation reject, modelling a Document Access failure (`failAt = none` is
the failure-free run).  Mutations queued between two syncs are applied at
issue time; a batch cut off by a failing sync is not applied. -/

structure Mismatch where
  loc : Nat
  suggestion : List Char
deriving DecidableEq

structure Session where
  errors : List Mismatch
  currentIndex : Nat
  isChecking : Bool
deriving DecidableEq

inductive Notif where
  | noErrors
  | checkFailed
  | acceptedAll
  | clearedAll
deriving DecidableEq

structure DocState where
  text : Nat → List Char
  nextWord : Nat → List Char
  highlight : Nat → Option (List Char)
  selection : Option Nat

structure SearchResult where
  sHits : List Nat
  zHits : List Nat
deriving DecidableEq

def HIGHLIGHT_COLOR : List Char := "#FFC0CB".toList

def setText (doc : DocState) (loc : Nat) (s : List Char) : DocState :=
  { doc with text := fun l => if l = loc then s else doc.text l }

def setHighlight (doc : DocState) (loc : Nat) (c : Option (List Char)) : DocState :=
  { doc with highlight := fun l => if l = loc then c else doc.highlight l }

def setSelection (doc : DocState) (s : Option Nat) : DocState :=
  { doc with selection := s }

/-- JS whitespace for `trim()`, restricted to the separators that occur in
this program's data (space, newline, tab, carriage return). -/
def isSpaceChar (c : Char) : Bool :=
  c == ' ' || c == '\n' || c == '\t' || c == '\r'

/-- `String.prototype.trim`. -/
def jsTrim (s : List Char) : List Char :=
  ((s.dropWhile isSpaceChar).reverse.dropWhile isSpaceChar).reverse

/-- `String.prototype.toLowerCase`, character by character. -/
def jsLower (ctx : RuleCtx) (s : List Char) : List Char :=
  s.map ctx.toLower

def syncFails (failAt : Option Nat) (k : Nat) : Bool :=
  failAt == some k

/-- The candidate filter of lines 65-66:
`['s','z'].includes(r.text.trim().toLowerCase())`. -/
def keepCandidate (ctx : RuleCtx) (doc : DocState) (loc : Nat) : Bool :=
  jsLower ctx (jsTrim (doc.text loc)) == ['s'] ||
    jsLower ctx (jsTrim (doc.text loc)) == ['z']

/-- The decision of the per-candidate loop body (lines 70-84): read the next
word, skip when it trims to empty; ask the rule engine, skip on no opinion;
record a mismatch with the engine's letter as suggestion when it differs
from the candidate's trimmed lowercased text. -/
def mismatchAt (ctx : RuleCtx) (doc : DocState) (loc : Nat) : Option Mismatch :=
  let nxt := jsTrim (doc.nextWord loc)
  if nxt = [] then none
  else
    match determineCorrectPreposition ctx nxt with
    | none => none
    | some expected =>
      if jsLower ctx (jsTrim (doc.text loc)) ≠ expected then some ⟨loc, expected⟩
      else none

/-- The candidate loop of lines 69-85.  Each iteration starts with a
`context.sync()` (line 73, sync number `k`); a mismatch is highlighted
(line 82) and appended to `state.errors` (line 83).  On a sync failure the
loop aborts, reporting the mismatches pushed so far and the failing sync. -/
def scanLoopF (ctx : RuleCtx) (failAt : Option Nat) (doc : DocState) :
    List Nat → Nat → List Mismatch → DocState →
      List Mismatch × DocState × Option Nat
  | [], _, errs, d => (errs, d, none)
  | loc :: rest, k, errs, d =>
    if syncFails failAt k then (errs, d, some k)
    else
      match mismatchAt ctx doc loc with
      | some m =>
        scanLoopF ctx failAt doc rest (k + 1) (errs ++ [m])
          (setHighlight d m.loc (some HIGHLIGHT_COLOR))
      | none => scanLoopF ctx failAt doc rest (k + 1) errs d

/-- The `Word.run` body of `checkDocumentText` (lines 50-101).  Lines 45-47
reset `state.errors` to `[]` BEFORE this body runs, so the clearing loop of
lines 52-55 iterates the already-emptied list and clears no highlight.
Sync numbering: 0 = line 56, 1 = line 63, `2+i` = line 73 for candidate `i`,
`2 + #candidates` = line 99 (only reached when mismatches were found).
The fourth component is `some k` when sync `k` failed (the thrown error). -/
def scanBodyF (ctx : RuleCtx) (failAt : Option Nat) (doc : DocState)
    (sr : SearchResult) : List Mismatch × DocState × Option Notif × Option Nat :=
  let d0 := ([] : List Mismatch).foldl (fun d m => setHighlight d m.loc none) doc
  if syncFails failAt 0 then ([], d0, none, some 0)
  else if syncFails failAt 1 then ([], d0, none, some 1)
  else
    let candidates := (sr.sHits ++ sr.zHits).filter (keepCandidate ctx doc)
    match scanLoopF ctx failAt doc candidates 2 [] d0 with
    | (errs, d, some k) => (errs, d, none, some k)
    | (errs, d, none) =>
      match errs with
      | [] => ([], d, some Notif.noErrors, none)
      | e :: rest =>
        if syncFails failAt (2 + candidates.length) then
          (e :: rest, d, none, some (2 + candidates.length))
        else (e :: rest, setSelection d (some e.loc), none, none)

/-- `checkDocumentText` (lines 40-111): the re-entrancy guard of line 41
returns before touching anything; otherwise the run body executes under
try/catch — a failure is caught (line 102) and reported as the error
notification of lines 104-107 — and the `finally` of lines 108-110 resets
`isChecking` on both paths.  `state.errors` keeps whatever the body pushed
before a failure, because the pushes of line 83 mutate module state. -/
def checkDocumentTextF (ctx : RuleCtx) (failAt : Option Nat) (st : Session)
    (doc : DocState) (sr : SearchResult) : Session × DocState × Option Notif :=
  if st.isChecking then (st, doc, none)
  else
    match scanBodyF ctx failAt doc sr with
    | (errs, d, notif, none) => (⟨errs, 0, false⟩, d, notif)
    | (errs, d, _, some _) => (⟨errs, 0, false⟩, d, some Notif.checkFailed)

/-- The failure-free `scan()`. -/
def checkDocumentText (ctx : RuleCtx) (st : Session) (doc : DocState)
    (sr : SearchResult) : Session × DocState × Option Notif :=
  checkDocumentTextF ctx none st doc sr

/-- `acceptCurrentChange` (lines 116-139): guard `currentIndex >= length`
returns (modelled as status `false`); the entry is spliced out BEFORE the
document batch runs; the first `Word.run` (sync 0) replaces the text and
clears the flag; the second `Word.run` (sync 1) selects the next entry when
one remains.  There is no try/catch: a sync failure escapes as `.error`,
carrying the already-spliced session and the document as left behind. -/
def acceptCurrentChangeF (failAt : Option Nat) (st : Session) (doc : DocState) :
    Except (Nat × Session × DocState) (Session × DocState × Bool) :=
  if h : st.currentIndex < st.errors.length then
    let m := st.errors.get ⟨st.currentIndex, h⟩
    let st' : Session := { st with errors := st.errors.eraseIdx st.currentIndex }
    if syncFails failAt 0 then .error (0, st', doc)
    else
      let doc1 := setHighlight (setText doc m.loc m.suggestion) m.loc none
      if h2 : st'.currentIndex < st'.errors.length then
        if syncFails failAt 1 then .error (1, st', doc1)
        else
          .ok (st', setSelection doc1
            (some (st'.errors.get ⟨st'.currentIndex, h2⟩).loc), true)
      else .ok (st', doc1, true)
  else .ok (st, doc, false)

/-- The failure-free `acceptOne()`. -/
def acceptCurrentChange (st : Session) (doc : DocState) :
    Session × DocState × Bool :=
  match acceptCurrentChangeF none st doc with
  | .ok r => r
  | .error (_, s, d) => (s, d, false)

/-- `rejectCurrentChange` (lines 144-166): like accept-one but only clears
the highlight, never the text.  Also without try/catch. -/
def rejectCurrentChangeF (failAt : Option Nat) (st : Session) (doc : DocState) :
    Except (Nat × Session × DocState) (Session × DocState × Bool) :=
  if h : st.currentIndex < st.errors.length then
    let m := st.errors.get ⟨st.currentIndex, h⟩
    let st' : Session := { st with errors := st.errors.eraseIdx st.currentIndex }
    if syncFails failAt 0 then .error (0, st', doc)
    else
      let doc1 := setHighlight doc m.loc none
      if h2 : st'.currentIndex < st'.errors.length then
        if syncFails failAt 1 then .error (1, st', doc1)
        else
          .ok (st', setSelection doc1
            (some (st'.errors.get ⟨st'.currentIndex, h2⟩).loc), true)
      else .ok (st', doc1, true)
  else .ok (st, doc, false)

/-- One `acceptAllChanges` replacement step (lines 180-184): replace the
range's text with the suggestion and clear its flag. -/
def applyAccept (d : DocState) (m : Mismatch) : DocState :=
  setHighlight (setText d m.loc m.suggestion) m.loc none

/-- One `rejectAllChanges` step (lines 209-212): clear the flag only. -/
def applyReject (d : DocState) (m : Mismatch) : DocState :=
  setHighlight d m.loc none

/-- `acceptAllChanges` (lines 171-195): an empty queue first triggers a full
fresh `checkDocumentText()` (line 174) — which catches its own failures —
then, if the queue is still empty, the operation returns; otherwise its own
uncaught `Word.run` (sync 0 of `failAtSelf`) replaces every queued mismatch,
after which the queue is emptied and `currentIndex` reset. -/
def acceptAllChangesF (ctx : RuleCtx) (failAtScan failAtSelf : Option Nat)
    (st : Session) (doc : DocState) (sr : SearchResult) :
    Except (Nat × Session × DocState) (Session × DocState × Option Notif) :=
  let r1 := if st.errors.isEmpty then checkDocumentTextF ctx failAtScan st doc sr
            else (st, doc, none)
  let st1 := r1.1
  let doc1 := r1.2.1
  if st1.errors.isEmpty then .ok (st1, doc1, r1.2.2)
  else if syncFails failAtSelf 0 then .error (0, st1, doc1)
  else
    .ok ({ st1 with errors := [], currentIndex := 0 },
      st1.errors.foldl applyAccept doc1, some Notif.acceptedAll)

/-- The failure-free `acceptAll()`. -/
def acceptAllChanges (ctx : RuleCtx) (st : Session) (doc : DocState)
    (sr : SearchResult) : Session × DocState × Option Notif :=
  match acceptAllChangesF ctx none none st doc sr with
  | .ok r => r
  | .error (_, s, d) => (s, d, none)

/-- `rejectAllChanges` (lines 200-223): same shape as accept-all but the
uncaught `Word.run` only clears flags. -/
def rejectAllChangesF (ctx : RuleCtx) (failAtScan failAtSelf : Option Nat)
    (st : Session) (doc : DocState) (sr : SearchResult) :
    Except (Nat × Session × DocState) (Session × DocState × Option Notif) :=
  let r1 := if st.errors.isEmpty then checkDocumentTextF ctx failAtScan st doc sr
            else (st, doc, none)
  let st1 := r1.1
  let doc1 := r1.2.1
  if st1.errors.isEmpty then .ok (st1, doc1, r1.2.2)
  else if syncFails failAtSelf 0 then .error (0, st1, doc1)
  else
    .ok ({ st1 with errors := [], currentIndex := 0 },
      st1.errors.foldl applyReject doc1, some Notif.clearedAll)

def isErr {ε α : Type} : Except ε α → Bool
  | .error _ => true
  | .ok _ => false

/-! ## Concrete instances used by witnesses and counterexamples -/

/-- A trivial string model: identity normalization and lowercasing, ASCII
letters.  It satisfies every hypothesis the theorems place on `RuleCtx`. -/
def ctx0 : RuleCtx := ⟨id, Char.isAlpha, id⟩

/-- A realistic ASCII string model: identity NFC (ASCII is NFC-stable),
ASCII letter class and ASCII lowercasing. -/
def ctxA : RuleCtx := ⟨id, Char.isAlpha, Char.toLower⟩

def emptyDoc : DocState := ⟨fun _ => [], fun _ => [], fun _ => none, none⟩

/-- A document whose range 0 reads "s" followed by the word "ban"
(voiced 'b', so the expected preposition is "z"). -/
def docS : DocState :=
  { emptyDoc with
    text := fun l => if l = 0 then ['s'] else []
    nextWord := fun l => if l = 0 then ['b', 'a', 'n'] else [] }

/-- Like `docS` but the token is uppercase "S". -/
def docSupper : DocState :=
  { emptyDoc with
    text := fun l => if l = 0 then ['S'] else []
    nextWord := fun l => if l = 0 then ['b', 'a', 'n'] else [] }

/-- A document with a "z" mismatch at position 0 (next word "pes",
unvoiced 'p') and an "s" mismatch at position 10 (next word "ban"). -/
def docInter : DocState :=
  { emptyDoc with
    text := fun l => if l = 0 then ['z'] else if l = 10 then ['s'] else []
    nextWord := fun l =>
      if l = 0 then ['p', 'e', 's'] else if l = 10 then ['b', 'a', 'n'] else [] }

/-- A document still carrying the pink flag a previous scan left at
position 5. -/
def docFlagged : DocState :=
  { emptyDoc with
    highlight := fun l => if l = 5 then some HIGHLIGHT_COLOR else none }

def st0 : Session := ⟨[], 0, false⟩

def stBusy : Session := ⟨[], 0, true⟩

def stOne : Session := ⟨[⟨0, ['z']⟩], 0, false⟩

/-- The session a previous scan left behind: one mismatch flagged at 5. -/
def stPrev : Session := ⟨[⟨5, ['z']⟩], 0, false⟩

def srS : SearchResult := ⟨[0], []⟩

def srInter : SearchResult := ⟨[10], [0]⟩

def srNone : SearchResult := ⟨[], []⟩

/-- The mismatches a failure-free scan detects among one letter's search
hits, in hit order: the candidate filter of lines 65-66 followed by the
per-candidate decision of lines 70-84. -/
def detectedMismatches (ctx : RuleCtx) (doc : DocState) (hits : List Nat) :
    List Mismatch :=
  (hits.filter (keepCandidate ctx doc)).filterMap (mismatchAt ctx doc)

/-- Helper: the digit table is defined on every ASCII digit. -/
theorem digitMap_isSome_of_isDigitChar {c : Char} (h : isDigitChar c = true) :
    (digitMap c).isSome = true := by
  have hmem : c ∈ digitChars := by
    simpa [isDigitChar] using h
  simp only [digitChars, List.mem_cons, List.not_mem_nil, or_false] at hmem
  rcases hmem with rfl | rfl | rfl | rfl | rfl | rfl | rfl | rfl | rfl | rfl <;> rfl

/-- Helper: the codomain of the rule engine is `{none, "s", "z"}`. -/
theorem determineCorrectPreposition_cases (ctx : RuleCtx) (rawWord : List Char) :
    determineCorrectPreposition ctx rawWord = none ∨
      determineCorrectPreposition ctx rawWord = some ['s'] ∨
      determineCorrectPreposition ctx rawWord = some ['z'] := by
  unfold determineCorrectPreposition
  split
  · exact Or.inl rfl
  · split
    · exact Or.inl rfl
    · dsimp only
      split <;> split <;>
        first
          | exact Or.inr (Or.inl rfl)
          | exact Or.inr (Or.inr rfl)


/-! ## Claim theorems -/

/-- C1: for every input string, `determineCorrectPreposition` equals the
reference definition of §4.1 for the `{s,z}` class: NFC-normalize, extract
the first letter-or-digit (`None` when none exists, and only then), send a
digit through the fixed table `1→e 2→d 3→t 4→š 5→p 6→š 7→s 8→o 9→d 0→n`,
and answer `"s"` exactly when the resulting letter is (caselessly) in
`{c,č,f,h,k,p,s,š,t}`, else `"z"`.  Quantified over every string model whose
NFC fixes the empty string and whose lowercasing fixes digits and maps
non-digits to non-digits — facts that hold of the real JS primitives. -/
theorem determineCorrectPreposition_matches_spec (ctx : RuleCtx)
    (hnfc : ctx.nfc [] = [])
    (hfix : ∀ c, isDigitChar c = true → ctx.toLower c = c)
    (hpres : ∀ c, isDigitChar (ctx.toLower c) = isDigitChar c)
    (rawWord : List Char) :
    determineCorrectPreposition ctx rawWord = expectedPreposition ctx rawWord := by
  unfold determineCorrectPreposition expectedPreposition
  by_cases hr : rawWord = []
  · subst hr
    simp [hnfc, firstLetterOrDigit]
  · rw [if_neg hr]
    cases hfl : firstLetterOrDigit ctx.isLetter (ctx.nfc rawWord) with
    | none => rfl
    | some m =>
      dsimp only
      by_cases hd : isDigitChar m = true
      · rw [hfix m hd]
      · have hd' : isDigitChar m = false := by
          cases hq : isDigitChar m
          · rfl
          · exact absurd hq hd
        have h2 : isDigitChar (ctx.toLower m) = false := by rw [hpres m, hd']
        simp [hd', h2]

/-- Witness for C1 at the concrete inputs "7x" (digit branch) and "ban". -/
theorem determineCorrectPreposition_matches_spec_witness :
    (determineCorrectPreposition ctx0 ['7', 'x'] =
        expectedPreposition ctx0 ['7', 'x'] ∧
      determineCorrectPreposition ctx0 ['b', 'a', 'n'] =
        expectedPreposition ctx0 ['b', 'a', 'n']) ∧
      determineCorrectPreposition ctx0 ['7', 'x'] = some ['s'] ∧
      determineCorrectPreposition ctx0 ['b', 'a', 'n'] = some ['z'] :=
  ⟨⟨determineCorrectPreposition_matches_spec ctx0 rfl (fun _ _ => rfl)
      (fun _ => rfl) ['7', 'x'],
    determineCorrectPreposition_matches_spec ctx0 rfl (fun _ _ => rfl)
      (fun _ => rfl) ['b', 'a', 'n']⟩,
   by decide, by decide⟩

/-- C10: the rule engine is total with codomain `{none, "s", "z"}`; the
digit table is defined on every ASCII digit the extraction regex can
produce; and an input whose first letter-or-digit is a digit never yields
`none` (quantified over any NFC model fixing the empty string). -/
theorem determineCorrectPreposition_total (ctx : RuleCtx) (rawWord : List Char)
    (hnfc : ctx.nfc [] = []) :
    (determineCorrectPreposition ctx rawWord = none ∨
       determineCorrectPreposition ctx rawWord = some ['s'] ∨
       determineCorrectPreposition ctx rawWord = some ['z']) ∧
      (∀ c, isDigitChar c = true → (digitMap c).isSome = true) ∧
      (∀ d, firstLetterOrDigit ctx.isLetter (ctx.nfc rawWord) = some d →
        isDigitChar d = true → determineCorrectPreposition ctx rawWord ≠ none) := by
  refine ⟨determineCorrectPreposition_cases ctx rawWord,
    fun _ hc => digitMap_isSome_of_isDigitChar hc, ?_⟩
  intro d hfl _hd
  have hr : rawWord ≠ [] := by
    intro h
    subst h
    rw [hnfc] at hfl
    simp [firstLetterOrDigit] at hfl
  unfold determineCorrectPreposition
  rw [if_neg hr, hfl]
  simp

/-- Witness for C10 at the concrete input "7". -/
theorem determineCorrectPreposition_total_witness :
    ((determineCorrectPreposition ctx0 ['7'] = none ∨
        determineCorrectPreposition ctx0 ['7'] = some ['s'] ∨
        determineCorrectPreposition ctx0 ['7'] = some ['z']) ∧
       (∀ c, isDigitChar c = true → (digitMap c).isSome = true) ∧
       (∀ d, firstLetterOrDigit ctx0.isLetter (ctx0.nfc ['7']) = some d →
         isDigitChar d = true → determineCorrectPreposition ctx0 ['7'] ≠ none)) ∧
      determineCorrectPreposition ctx0 ['7'] = some ['s'] :=
  ⟨determineCorrectPreposition_total ctx0 ['7'] rfl, by decide⟩

/-- C8: while a scan is in flight (`isChecking` true), a further `scan()`
call — whatever the document, search results or failure schedule — returns
immediately with the session, the document and the notifications untouched
(line 41 precedes every mutation of `checkDocumentText`). -/
theorem checkDocumentText_reentrant_guard (ctx : RuleCtx) (failAt : Option Nat)
    (st : Session) (doc : DocState) (sr : SearchResult)
    (h : st.isChecking = true) :
    checkDocumentTextF ctx failAt st doc sr = (st, doc, none) := by
  simp [checkDocumentTextF, h]

/-- Witness for C8: a concrete in-flight session is left untouched. -/
theorem checkDocumentText_reentrant_guard_witness :
    checkDocumentTextF ctxA none stBusy docS srS = (stBusy, docS, none) :=
  checkDocumentText_reentrant_guard ctxA none stBusy docS srS rfl


/-- Helper: a mismatch recorded for a candidate carries that candidate's
location. -/
theorem mismatchAt_loc (ctx : RuleCtx) (doc : DocState) (loc : Nat)
    (m : Mismatch) (h : mismatchAt ctx doc loc = some m) : m.loc = loc := by
  simp only [mismatchAt] at h
  split at h
  · cases h
  · split at h
    · cases h
    · split at h
      · cases h
        rfl
      · cases h

/-- Helper: a mismatch's suggestion is an output of the rule engine. -/
theorem mismatchAt_suggestion (ctx : RuleCtx) (doc : DocState) (loc : Nat)
    (m : Mismatch) (h : mismatchAt ctx doc loc = some m) :
    m.suggestion = ['s'] ∨ m.suggestion = ['z'] := by
  simp only [mismatchAt] at h
  by_cases hn : jsTrim (doc.nextWord loc) = []
  · rw [if_pos hn] at h
    cases h
  · rw [if_neg hn] at h
    cases hc : determineCorrectPreposition ctx (jsTrim (doc.nextWord loc)) with
    | none =>
      rw [hc] at h
      cases h
    | some expected =>
      rw [hc] at h
      dsimp only at h
      have hexp : expected = ['s'] ∨ expected = ['z'] := by
        rcases determineCorrectPreposition_cases ctx (jsTrim (doc.nextWord loc)) with
          h0 | h0 | h0 <;> rw [h0] at hc
        · cases hc
        · exact Or.inl (Option.some.inj hc).symm
        · exact Or.inr (Option.some.inj hc).symm
      split at h
      · cases h
        exact hexp
      · cases h

/-- Helper: the candidate loop with no failing sync appends exactly the
mismatches of its candidates, in order, and reports no failure. -/
theorem scanLoopF_none_spec (ctx : RuleCtx) (doc : DocState) :
    ∀ (cands : List Nat) (k : Nat) (errs : List Mismatch) (d : DocState),
      (scanLoopF ctx none doc cands k errs d).1 =
          errs ++ cands.filterMap (mismatchAt ctx doc) ∧
        (scanLoopF ctx none doc cands k errs d).2.2 = none := by
  intro cands
  induction cands with
  | nil =>
    intro k errs d
    simp [scanLoopF]
  | cons loc rest ih =>
    intro k errs d
    unfold scanLoopF
    have hs : syncFails none k = false := rfl
    rw [hs]
    simp only [Bool.false_eq_true, if_false]
    cases hm : mismatchAt ctx doc loc with
    | some m =>
      dsimp only
      rcases ih (k + 1) (errs ++ [m]) (setHighlight d m.loc (some HIGHLIGHT_COLOR)) with ⟨h1, h2⟩
      refine ⟨?_, h2⟩
      rw [h1]
      simp [List.filterMap_cons, hm]
    | none =>
      dsimp only
      rcases ih (k + 1) errs d with ⟨h1, h2⟩
      refine ⟨?_, h2⟩
      rw [h1]
      simp [List.filterMap_cons, hm]

/-- Helper: whatever the failure schedule, the candidate loop's queue is the
accumulator followed by the mismatches of an initial segment of the
candidates (the whole list when nothing fails). -/
theorem scanLoopF_take (ctx : RuleCtx) (failAt : Option Nat) (doc : DocState) :
    ∀ (cands : List Nat) (k : Nat) (errs : List Mismatch) (d : DocState),
      ∃ j, (scanLoopF ctx failAt doc cands k errs d).1 =
        errs ++ (cands.take j).filterMap (mismatchAt ctx doc) := by
  intro cands
  induction cands with
  | nil =>
    intro k errs d
    exact ⟨0, by simp [scanLoopF]⟩
  | cons loc rest ih =>
    intro k errs d
    unfold scanLoopF
    by_cases hf : syncFails failAt k = true
    · rw [if_pos hf]
      exact ⟨0, by simp⟩
    · rw [if_neg hf]
      cases hm : mismatchAt ctx doc loc with
      | some m =>
        dsimp only
        obtain ⟨j, hj⟩ := ih (k + 1) (errs ++ [m])
          (setHighlight d m.loc (some HIGHLIGHT_COLOR))
        refine ⟨j + 1, ?_⟩
        rw [hj]
        simp [List.filterMap_cons, hm]
      | none =>
        dsimp only
        obtain ⟨j, hj⟩ := ih (k + 1) errs d
        refine ⟨j + 1, ?_⟩
        rw [hj]
        simp [List.filterMap_cons, hm]

/-- Helper: a failure-free scan body detects exactly the mismatches of the
filtered candidates (s-hits first, then z-hits) and reports no failure. -/
theorem scanBodyF_none_spec (ctx : RuleCtx) (doc : DocState) (sr : SearchResult) :
    (scanBodyF ctx none doc sr).1 =
        detectedMismatches ctx doc sr.sHits ++ detectedMismatches ctx doc sr.zHits ∧
      (scanBodyF ctx none doc sr).2.2.2 = none := by
  unfold scanBodyF
  have h0 : syncFails none 0 = false := rfl
  have h1 : syncFails none 1 = false := rfl
  rw [h0, h1]
  simp only [Bool.false_eq_true, if_false, List.foldl_nil]
  rcases hr : scanLoopF ctx none doc
      ((sr.sHits ++ sr.zHits).filter (keepCandidate ctx doc)) 2 [] doc with ⟨errs, d, fk⟩
  have hspec := scanLoopF_none_spec ctx doc
    ((sr.sHits ++ sr.zHits).filter (keepCandidate ctx doc)) 2 [] doc
  rw [hr] at hspec
  obtain ⟨he, hf⟩ := hspec
  dsimp only at he hf
  subst hf
  have herrs : errs = detectedMismatches ctx doc sr.sHits ++ detectedMismatches ctx doc sr.zHits := by
    rw [he]
    simp [detectedMismatches, List.filter_append, List.filterMap_append]
  cases errs with
  | nil => exact ⟨herrs ▸ rfl, rfl⟩
  | cons e rest =>
    have hs2 : syncFails none (2 + ((sr.sHits ++ sr.zHits).filter (keepCandidate ctx doc)).length) = false := rfl
    rw [hs2]
    simp only [Bool.false_eq_true, if_false]
    exact ⟨herrs, by trivial⟩

/-- Helper: a failure-free scan's queue is the s-hits' mismatches followed
by the z-hits' mismatches. -/
theorem checkDocumentText_errors_eq (ctx : RuleCtx) (st : Session)
    (doc : DocState) (sr : SearchResult) (h : st.isChecking = false) :
    (checkDocumentText ctx st doc sr).1.errors =
      detectedMismatches ctx doc sr.sHits ++ detectedMismatches ctx doc sr.zHits := by
  unfold checkDocumentText checkDocumentTextF
  rw [h]
  simp only [Bool.false_eq_true, if_false]
  obtain ⟨he, hf⟩ := scanBodyF_none_spec ctx doc sr
  rcases hr : scanBodyF ctx none doc sr with ⟨errs, d, n, fk⟩
  rw [hr] at he hf
  dsimp only at he hf
  subst hf
  exact he

/-- Helper: the locations of the mismatches recorded along a list of
candidates form a sublist of those candidates. -/
theorem filterMap_mismatchAt_locs_sublist (ctx : RuleCtx) (doc : DocState) :
    ∀ l : List Nat, List.Sublist ((l.filterMap (mismatchAt ctx doc)).map Mismatch.loc) l := by
  intro l
  induction l with
  | nil => simp
  | cons loc rest ih =>
    cases hm : mismatchAt ctx doc loc with
    | some m =>
      simp only [List.filterMap_cons, hm, List.map_cons]
      rw [mismatchAt_loc ctx doc loc m hm]
      exact List.Sublist.cons₂ loc ih
    | none =>
      simp only [List.filterMap_cons, hm]
      exact List.Sublist.cons loc ih

/-- Helper: detected-mismatch locations are a sublist of the search hits. -/
theorem detectedMismatches_locs_sublist (ctx : RuleCtx) (doc : DocState)
    (hits : List Nat) :
    List.Sublist ((detectedMismatches ctx doc hits).map Mismatch.loc) hits :=
  (filterMap_mismatchAt_locs_sublist ctx doc _).trans (List.filter_sublist hits)

/-- C2 (corrected): within one scan the queue is the s-hits' mismatches in
hit order followed by the z-hits' mismatches in hit order (line 65 spreads
`sRes.items` before `zRes.items`); each group's positions ascend whenever
that letter's search results ascend, but the whole queue is NOT sorted by
document position when s- and z-mismatches interleave. -/
theorem checkDocumentText_append_order (ctx : RuleCtx) (st : Session)
    (doc : DocState) (sr : SearchResult) (h : st.isChecking = false) :
    (checkDocumentText ctx st doc sr).1.errors =
        detectedMismatches ctx doc sr.sHits ++ detectedMismatches ctx doc sr.zHits ∧
      List.Sublist ((detectedMismatches ctx doc sr.sHits).map Mismatch.loc) sr.sHits ∧
      List.Sublist ((detectedMismatches ctx doc sr.zHits).map Mismatch.loc) sr.zHits ∧
      (sr.sHits.Sorted (· ≤ ·) →
        ((detectedMismatches ctx doc sr.sHits).map Mismatch.loc).Sorted (· ≤ ·)) ∧
      (sr.zHits.Sorted (· ≤ ·) →
        ((detectedMismatches ctx doc sr.zHits).map Mismatch.loc).Sorted (· ≤ ·)) :=
  ⟨checkDocumentText_errors_eq ctx st doc sr h,
   detectedMismatches_locs_sublist ctx doc _,
   detectedMismatches_locs_sublist ctx doc _,
   fun hs => List.Pairwise.sublist (detectedMismatches_locs_sublist ctx doc _) hs,
   fun hs => List.Pairwise.sublist (detectedMismatches_locs_sublist ctx doc _) hs⟩

/-- Witness for C2's corrected statement on a concrete interleaved document. -/
theorem checkDocumentText_append_order_witness :
    (checkDocumentText ctxA st0 docInter srInter).1.errors =
      detectedMismatches ctxA docInter srInter.sHits ++
        detectedMismatches ctxA docInter srInter.zHits :=
  (checkDocumentText_append_order ctxA st0 docInter srInter rfl).1

/-- C2 counterexample: a document with a "z" mismatch at position 0 and an
"s" mismatch at position 10 is queued as positions [10, 0] — not ascending
document order, refuting the claim for interleaved candidates. -/
theorem checkDocumentText_order_counterexample :
    (checkDocumentText ctxA st0 docInter srInter).1.errors.map Mismatch.loc = [10, 0] ∧
      ¬ ((checkDocumentText ctxA st0 docInter srInter).1.errors.map
          Mismatch.loc).Sorted (· ≤ ·) := by
  have h1 : (checkDocumentText ctxA st0 docInter srInter).1.errors.map
      Mismatch.loc = [10, 0] := by decide
  refine ⟨h1, ?_⟩
  rw [h1]
  decide

/-- C3 (corrected): every suggestion scan() queues is the rule engine's own
letter, lowercase "s" or "z", whatever the token's case — lines 78-84 push
`suggestion: expected` with no case adjustment, so an uppercase token does
not get an uppercase suggestion (see the counterexample). -/
theorem checkDocumentText_suggestion_lowercase (ctx : RuleCtx) (st : Session)
    (doc : DocState) (sr : SearchResult) (h : st.isChecking = false) :
    ∀ m ∈ (checkDocumentText ctx st doc sr).1.errors,
      m.suggestion = ['s'] ∨ m.suggestion = ['z'] := by
  intro m hm
  rw [checkDocumentText_errors_eq ctx st doc sr h] at hm
  rcases List.mem_append.mp hm with hm' | hm' <;>
  · simp only [detectedMismatches] at hm'
    obtain ⟨loc, hinl, hml⟩ := List.mem_filterMap.mp hm'
    exact mismatchAt_suggestion ctx doc loc m hml

/-- Witness for C3's corrected statement at a concrete uppercase token. -/
theorem checkDocumentText_suggestion_lowercase_witness :
    (⟨0, ['z']⟩ : Mismatch).suggestion = ['s'] ∨
      (⟨0, ['z']⟩ : Mismatch).suggestion = ['z'] :=
  checkDocumentText_suggestion_lowercase ctxA st0 docSupper srS rfl
    ⟨0, ['z']⟩ (by decide)

/-- C3 counterexample: the uppercase token "S" before the voiced word "ban"
is queued with suggestion "z", not the claimed "Z". -/
theorem checkDocumentText_case_counterexample :
    docSupper.text 0 = ['S'] ∧
      (checkDocumentText ctxA st0 docSupper srS).1.errors = [⟨0, ['z']⟩] ∧
      (['z'] : List Char) ≠ ['Z'] :=
  ⟨rfl, by decide, by decide⟩

/-- C9 (code bug): lines 45-47 reset `state.errors` before the clearing
loop of lines 52-55 iterates it, so scan() issues no flag-clearing request
at all.  Evaluated at the failing input: the previous scan flagged
location 5; re-scanning a document with no candidates leaves the pink flag
at 5 even though the new queue is empty — the spec requires it cleared. -/
theorem scan_stale_highlight_bug :
    stPrev.errors.map Mismatch.loc = [5] ∧
      docFlagged.highlight 5 = some HIGHLIGHT_COLOR ∧
      (checkDocumentText ctxA stPrev docFlagged srNone).2.1.highlight 5 =
        some HIGHLIGHT_COLOR ∧
      (checkDocumentText ctxA stPrev docFlagged srNone).1.errors = [] :=
  ⟨rfl, by decide, by decide, by decide⟩

/-- C4: on a session whose cursor is at the head — the only cursor position
this variant ever produces, since `currentIndex` is set to 0 on scan and
never advanced — and whose queue is non-empty, acceptOne removes exactly
the head entry (length N−1), the text at the resolved location becomes the
suggestion, and the status is true; on an empty queue it returns false and
changes neither session nor document. -/
theorem acceptCurrentChange_spec (st : Session) (doc : DocState) :
    (st.errors = [] → acceptCurrentChange st doc = (st, doc, false)) ∧
      (st.currentIndex = 0 → ∀ m rest, st.errors = m :: rest →
        (acceptCurrentChange st doc).1.errors.length = st.errors.length - 1 ∧
          (acceptCurrentChange st doc).2.1.text m.loc = m.suggestion ∧
          (acceptCurrentChange st doc).2.2 = true) := by
  constructor
  · intro he
    simp [acceptCurrentChange, acceptCurrentChangeF, he]
  · intro hci m rest he
    obtain ⟨errors, ci, chk⟩ := st
    dsimp only at hci he
    subst hci
    subst he
    have hlt : (0 : Nat) < (m :: rest).length := Nat.succ_pos _
    cases rest with
    | nil =>
      refine ⟨?_, ?_, ?_⟩ <;>
        simp [acceptCurrentChange, acceptCurrentChangeF, syncFails, setText,
          setHighlight, setSelection]
    | cons r rs =>
      refine ⟨?_, ?_, ?_⟩ <;>
        simp [acceptCurrentChange, acceptCurrentChangeF, syncFails, setText,
          setHighlight, setSelection]

/-- Witness for C4 at a concrete empty and a concrete singleton session. -/
theorem acceptCurrentChange_spec_witness :
    acceptCurrentChange st0 emptyDoc = (st0, emptyDoc, false) ∧
      ((acceptCurrentChange stOne emptyDoc).1.errors.length =
          stOne.errors.length - 1 ∧
        (acceptCurrentChange stOne emptyDoc).2.1.text 0 = ['z'] ∧
        (acceptCurrentChange stOne emptyDoc).2.2 = true) :=
  ⟨(acceptCurrentChange_spec st0 emptyDoc).1 rfl,
   (acceptCurrentChange_spec stOne emptyDoc).2 rfl ⟨0, ['z']⟩ [] rfl⟩

/-- Helper: folding the accept-all replacement over mismatches whose
locations all differ from `p` leaves the text at `p` unchanged. -/
theorem foldl_applyAccept_text_of_not_mem (p : Nat) :
    ∀ (l : List Mismatch) (d : DocState), (∀ x ∈ l, x.loc ≠ p) →
      (l.foldl applyAccept d).text p = d.text p := by
  intro l
  induction l with
  | nil => intro d _; rfl
  | cons hd tl ih =>
    intro d hp
    rw [List.foldl_cons]
    rw [ih _ fun x hx => hp x (List.mem_cons_of_mem hd hx)]
    have hne : p ≠ hd.loc := fun hq => hp hd (List.mem_cons_self hd tl) hq.symm
    simp [applyAccept, setText, setHighlight, hne]

/-- Helper: after folding the accept-all replacement over mismatches with
pairwise-distinct locations, each queued location reads its suggestion. -/
theorem foldl_applyAccept_text_eq :
    ∀ (l : List Mismatch) (d : DocState), (l.map Mismatch.loc).Nodup →
      ∀ m ∈ l, (l.foldl applyAccept d).text m.loc = m.suggestion := by
  intro l
  induction l with
  | nil => intro d _ m hm; cases hm
  | cons hd tl ih =>
    intro d hnd m hm
    rw [List.map_cons, List.nodup_cons] at hnd
    rw [List.foldl_cons]
    rcases List.mem_cons.mp hm with rfl | hm'
    · have hnot : ∀ x ∈ tl, x.loc ≠ m.loc := by
        intro x hx hq
        exact hnd.1 (hq ▸ List.mem_map_of_mem Mismatch.loc hx)
      rw [foldl_applyAccept_text_of_not_mem m.loc tl _ hnot]
      simp [applyAccept, setText, setHighlight]
    · exact ih _ hnd.2 m hm'

/-- C5 (corrected): on an empty queue, acceptAll is not a no-op — line 174
first repopulates the queue with a fresh scan; the operation stops with the
scan's state only when that scan also finds nothing, and otherwise replaces
every newly found mismatch and empties the queue. -/
theorem acceptAllChanges_empty_rescan (ctx : RuleCtx) (st : Session)
    (doc : DocState) (sr : SearchResult) (hq : st.errors = [])
    (hchk : st.isChecking = false) (hnd : (sr.sHits ++ sr.zHits).Nodup) :
    ((checkDocumentText ctx st doc sr).1.errors = [] →
        acceptAllChanges ctx st doc sr = checkDocumentText ctx st doc sr) ∧
      ((checkDocumentText ctx st doc sr).1.errors ≠ [] →
        (acceptAllChanges ctx st doc sr).1.errors = [] ∧
          ∀ m ∈ (checkDocumentText ctx st doc sr).1.errors,
            (acceptAllChanges ctx st doc sr).2.1.text m.loc = m.suggestion) := by
  have hempty : st.errors.isEmpty = true := by rw [hq]; rfl
  have hcc : checkDocumentText ctx st doc sr = checkDocumentTextF ctx none st doc sr := rfl
  have hfail : syncFails none 0 = false := rfl
  have hlocs : (((checkDocumentText ctx st doc sr).1.errors).map
      Mismatch.loc).Nodup := by
    rw [checkDocumentText_errors_eq ctx st doc sr hchk, List.map_append]
    exact List.Nodup.sublist
      (List.Sublist.append (detectedMismatches_locs_sublist ctx doc _)
        (detectedMismatches_locs_sublist ctx doc _)) hnd
  constructor
  · intro hs
    rw [hcc] at hs
    have hsE : ((checkDocumentTextF ctx none st doc sr).1.errors).isEmpty = true := by
      rw [hs]; rfl
    simp [acceptAllChanges, acceptAllChangesF, hempty, hsE, hcc]
  · intro hs
    rw [hcc] at hs
    have hsE : ((checkDocumentTextF ctx none st doc sr).1.errors).isEmpty = false := by
      rcases hl : (checkDocumentTextF ctx none st doc sr).1.errors with _ | ⟨e, es⟩
      · exact absurd hl hs
      · rfl
    constructor
    · simp [acceptAllChanges, acceptAllChangesF, hempty, hsE, hfail]
    · intro m hm
      have htext := foldl_applyAccept_text_eq
        ((checkDocumentText ctx st doc sr).1.errors)
        ((checkDocumentText ctx st doc sr).2.1) hlocs m hm
      rw [hcc] at htext
      simpa [acceptAllChanges, acceptAllChangesF, hempty, hsE, hfail] using htext

/-- Witness for C5's corrected statement: a concrete empty-queue session on
a one-mismatch document — acceptAll rescans and applies the fix. -/
theorem acceptAllChanges_empty_rescan_witness :
    (acceptAllChanges ctxA st0 docS srS).1.errors = [] ∧
      (acceptAllChanges ctxA st0 docS srS).2.1.text 0 = ['z'] := by
  have h := (acceptAllChanges_empty_rescan ctxA st0 docS srS rfl rfl
    (by decide)).2 (by decide)
  exact ⟨h.1, h.2 ⟨0, ['z']⟩ (by decide)⟩

/-- C5 counterexample: with an empty queue and a document containing one
mismatch, acceptAll mutates the document (position 0 changes from "s" to
"z"), refuting the claimed no-op. -/
theorem acceptAllChanges_empty_counterexample :
    st0.errors = [] ∧ docS.text 0 = ['s'] ∧
      (acceptAllChanges ctxA st0 docS srS).2.1.text 0 = ['z'] :=
  ⟨rfl, rfl, by decide⟩

/-- Helper: whatever the failure schedule, the queue scan() leaves behind is
exactly what its run body produced (both on the caught-failure path and on
the normal path). -/
theorem checkDocumentTextF_errors_eq_body (ctx : RuleCtx) (failAt : Option Nat)
    (st : Session) (doc : DocState) (sr : SearchResult)
    (h : st.isChecking = false) :
    (checkDocumentTextF ctx failAt st doc sr).1.errors =
      (scanBodyF ctx failAt doc sr).1 := by
  unfold checkDocumentTextF
  rw [h]
  simp only [Bool.false_eq_true, if_false]
  rcases hb : scanBodyF ctx failAt doc sr with ⟨errs, d, n, fk⟩
  cases fk <;> rfl

/-- Helper: under any failure schedule the scan body's queue is an initial
segment of the failure-free queue. -/
theorem scanBodyF_errors_take (ctx : RuleCtx) (failAt : Option Nat)
    (doc : DocState) (sr : SearchResult) :
    ∃ j, (scanBodyF ctx failAt doc sr).1 =
      ((scanBodyF ctx none doc sr).1).take j := by
  obtain ⟨hfull, -⟩ := scanBodyF_none_spec ctx doc sr
  have hfull' : (scanBodyF ctx none doc sr).1 =
      ((sr.sHits ++ sr.zHits).filter (keepCandidate ctx doc)).filterMap
        (mismatchAt ctx doc) := by
    rw [hfull]
    simp [detectedMismatches, List.filter_append, List.filterMap_append]
  rw [hfull']
  unfold scanBodyF
  by_cases h0 : syncFails failAt 0 = true
  · rw [if_pos h0]
    exact ⟨0, by simp⟩
  · rw [if_neg h0]
    by_cases h1 : syncFails failAt 1 = true
    · rw [if_pos h1]
      exact ⟨0, by simp⟩
    · rw [if_neg h1]
      simp only [Bool.false_eq_true, if_false, List.foldl_nil]
      rcases hr : scanLoopF ctx failAt doc
          ((sr.sHits ++ sr.zHits).filter (keepCandidate ctx doc)) 2 [] doc with
        ⟨errs, d, fk⟩
      obtain ⟨j, hj⟩ := scanLoopF_take ctx failAt doc
        ((sr.sHits ++ sr.zHits).filter (keepCandidate ctx doc)) 2 [] doc
      rw [hr] at hj
      dsimp only at hj
      rw [List.nil_append] at hj
      have hsplit : ((sr.sHits ++ sr.zHits).filter
            (keepCandidate ctx doc)).filterMap (mismatchAt ctx doc) =
          (((sr.sHits ++ sr.zHits).filter (keepCandidate ctx doc)).take
              j).filterMap (mismatchAt ctx doc) ++
            (((sr.sHits ++ sr.zHits).filter (keepCandidate ctx doc)).drop
              j).filterMap (mismatchAt ctx doc) := by
        rw [← List.filterMap_append, List.take_append_drop]
      have hkey : ∀ r : List Mismatch × DocState × Option Notif × Option Nat,
          r.1 = errs →
          ∃ j', r.1 = (((sr.sHits ++ sr.zHits).filter
            (keepCandidate ctx doc)).filterMap (mismatchAt ctx doc)).take j' := by
        intro r hr1
        refine ⟨((((sr.sHits ++ sr.zHits).filter (keepCandidate ctx doc)).take
          j).filterMap (mismatchAt ctx doc)).length, ?_⟩
        rw [hr1, hj, hsplit, List.take_left]
      cases fk with
      | some k => exact hkey _ rfl
      | none =>
        cases errs with
        | nil => exact ⟨0, by simp⟩
        | cons e rest =>
          dsimp only
          by_cases hfin : syncFails failAt
              (2 + ((sr.sHits ++ sr.zHits).filter (keepCandidate ctx doc)).length) = true
          · rw [if_pos hfin]
            exact hkey _ rfl
          · rw [if_neg hfin]
            exact hkey _ rfl

/-- C6 (corrected): a Document Access failure during scan() aborts the scan
with the failure caught and reported as the recoverable error notification,
and `isChecking` is reset on every exit path; but the queue is not always
left empty — it retains exactly the mismatches the aborted body had already
pushed, an initial segment of the failure-free queue (empty only when the
failure precedes the first detection). -/
theorem checkDocumentTextF_failure_spec (ctx : RuleCtx) (failAt : Option Nat)
    (st : Session) (doc : DocState) (sr : SearchResult)
    (h : st.isChecking = false) :
    (checkDocumentTextF ctx failAt st doc sr).1.isChecking = false ∧
      (∀ errs d n k, scanBodyF ctx failAt doc sr = (errs, d, n, some k) →
        (checkDocumentTextF ctx failAt st doc sr).2.2 = some Notif.checkFailed ∧
          (checkDocumentTextF ctx failAt st doc sr).1.errors = errs) ∧
      ∃ j, (checkDocumentTextF ctx failAt st doc sr).1.errors =
        ((checkDocumentText ctx st doc sr).1.errors).take j := by
  refine ⟨?_, ?_, ?_⟩
  · unfold checkDocumentTextF
    rw [h]
    simp only [Bool.false_eq_true, if_false]
    rcases hb : scanBodyF ctx failAt doc sr with ⟨errs, d, n, fk⟩
    cases fk <;> rfl
  · intro errs d n k hk
    constructor
    · unfold checkDocumentTextF
      rw [h]
      simp only [Bool.false_eq_true, if_false]
      rw [hk]
    · rw [checkDocumentTextF_errors_eq_body ctx failAt st doc sr h, hk]
  · rw [checkDocumentTextF_errors_eq_body ctx failAt st doc sr h,
      show checkDocumentText ctx st doc sr = checkDocumentTextF ctx none st doc sr from rfl,
      checkDocumentTextF_errors_eq_body ctx none st doc sr h]
    exact scanBodyF_errors_take ctx failAt doc sr

/-- Witness for C6's corrected statement: a failure at the very first sync
is reported and leaves `isChecking` reset. -/
theorem checkDocumentTextF_failure_spec_witness :
    (checkDocumentTextF ctxA (some 0) st0 emptyDoc srNone).1.isChecking = false ∧
      (checkDocumentTextF ctxA (some 0) st0 emptyDoc srNone).2.2 =
        some Notif.checkFailed := by
  have h := checkDocumentTextF_failure_spec ctxA (some 0) st0 emptyDoc srNone rfl
  exact ⟨h.1, (h.2.1 [] emptyDoc none 0 rfl).1⟩

/-- C6 counterexample: a failure at sync 3 — after the first mismatch was
already pushed — is reported as a failure, yet the queue is NOT empty. -/
theorem checkDocumentTextF_failure_counterexample :
    (checkDocumentTextF ctxA (some 3) st0 docInter srInter).2.2 =
        some Notif.checkFailed ∧
      (checkDocumentTextF ctxA (some 3) st0 docInter srInter).1.errors =
        [⟨10, ['z']⟩] ∧
      (checkDocumentTextF ctxA (some 3) st0 docInter srInter).1.errors ≠ [] :=
  ⟨by decide, by decide, by decide⟩

/-- C7 (corrected): Document Access failures are caught at the boundary of
scan() — a failing body still yields a normal return carrying the error
notification — but none of the four resolution operations catches: a sync
failure during acceptOne, rejectOne, acceptAll or rejectAll escapes the
operation as an error. -/
theorem operation_boundary_spec :
    (∀ (ctx : RuleCtx) (failAt : Option Nat) (st : Session) (doc : DocState)
        (sr : SearchResult) (errs : List Mismatch) (d : DocState)
        (n : Option Notif) (k : Nat), st.isChecking = false →
      scanBodyF ctx failAt doc sr = (errs, d, n, some k) →
      checkDocumentTextF ctx failAt st doc sr =
        (⟨errs, 0, false⟩, d, some Notif.checkFailed)) ∧
      (∀ (st : Session) (doc : DocState), st.currentIndex < st.errors.length →
        isErr (acceptCurrentChangeF (some 0) st doc) = true) ∧
      (∀ (st : Session) (doc : DocState), st.currentIndex < st.errors.length →
        isErr (rejectCurrentChangeF (some 0) st doc) = true) ∧
      (∀ (ctx : RuleCtx) (st : Session) (doc : DocState) (sr : SearchResult),
        st.errors ≠ [] →
        isErr (acceptAllChangesF ctx none (some 0) st doc sr) = true) ∧
      (∀ (ctx : RuleCtx) (st : Session) (doc : DocState) (sr : SearchResult),
        st.errors ≠ [] →
        isErr (rejectAllChangesF ctx none (some 0) st doc sr) = true) := by
  refine ⟨?_, ?_, ?_, ?_, ?_⟩
  · intro ctx failAt st doc sr errs d n k hchk hk
    unfold checkDocumentTextF
    rw [hchk]
    simp only [Bool.false_eq_true, if_false]
    rw [hk]
  · intro st doc h
    unfold isErr acceptCurrentChangeF
    rw [dif_pos h]
    rfl
  · intro st doc h
    unfold isErr rejectCurrentChangeF
    rw [dif_pos h]
    rfl
  · intro ctx st doc sr h
    obtain ⟨e, rest, he⟩ := List.exists_cons_of_ne_nil h
    simp [acceptAllChangesF, he, syncFails, isErr]
  · intro ctx st doc sr h
    obtain ⟨e, rest, he⟩ := List.exists_cons_of_ne_nil h
    simp [rejectAllChangesF, he, syncFails, isErr]

/-- Witness for C7's corrected statement at concrete sessions. -/
theorem operation_boundary_spec_witness :
    isErr (rejectCurrentChangeF (some 0) stOne emptyDoc) = true ∧
      isErr (acceptAllChangesF ctxA none (some 0) stOne emptyDoc srNone) = true :=
  ⟨operation_boundary_spec.2.2.1 stOne emptyDoc (by decide),
   operation_boundary_spec.2.2.2.1 ctxA stOne emptyDoc srNone (by decide)⟩

/-- C7 counterexample: a Document Access failure during acceptOne escapes
the operation (the result is an error, not a caught report). -/
theorem acceptCurrentChangeF_escape_counterexample :
    isErr (acceptCurrentChangeF (some 0) stOne emptyDoc) = true := by decide

end Predloga
